import Mathlib

/-!
Verification of the To-Do task manager (`ПР1/werrors1.py`)

Shallow embedding of the program's core: the SQLite-backed task store
(`TaskRepo`), the query/filter/sort pipeline (`ToDoApp._query_tasks`,
`ToDoApp._sort_by`), the derived row tags (`ToDoApp._apply_row_tags`),
the add/edit dialog commit (`TaskDialog.on_ok`), and CSV export/import
(`ToDoApp.on_export_csv` / `on_import_csv`).

Conventions of the embedding:
* The SQLite `tasks` table is a `List Task` plus the `AUTOINCREMENT`
  counter (`next_id`); `cur.lastrowid` is the id of the freshly
  inserted row.
* SQLite's BINARY text comparison (used by `due_date < ?` and by
  `ORDER BY` on text columns) is byte-wise comparison of the UTF-8
  encoding, which coincides with lexicographic comparison of the code
  points; it is modelled by `lexLt` on `List Char`.
* `datetime.now().isoformat(...)` is threaded in as an explicit `now`
  string; `date.today()` as an explicit `today` value.
* Python's `datetime.strptime(s, "%Y-%m-%d")` (CPython: `%Y` is exactly
  four digits, `%m`/`%d` one or two digits, and the resulting calendar
  date must exist, year ≥ 1) is modelled by `parseDate`.
-/

namespace Todo

/-- One row of the `tasks` table. -/
structure Task where
  id : Nat
  title : String
  details : String
  category : String
  priority : String
  due_date : String
  is_done : Bool
  order_index : Nat
  created_at : String
  updated_at : String
deriving Repr, DecidableEq

/-- The persistent store: the `tasks` table plus the AUTOINCREMENT counter. -/
structure Store where
  tasks : List Task
  next_id : Nat
deriving Repr, DecidableEq

def emptyStore : Store := { tasks := [], next_id := 1 }

/-- Models `SELECT COALESCE(MAX(order_index), 0) FROM tasks`. -/
def maxOrderIndex (s : Store) : Nat :=
  s.tasks.foldl (fun m t => max m t.order_index) 0

namespace TaskRepo

/-- Models `TaskRepo.create`: computes `next_idx` as max+1, inserts the row with
`is_done = 0`, `created_at = updated_at = now`, and returns the new store
together with `cur.lastrowid`. -/
def create (s : Store) (now title details category priority due_date : String) :
    Store × Nat :=
  let next_idx := maxOrderIndex s + 1
  let t : Task :=
    { id := s.next_id, title := title, details := details, category := category
      priority := priority, due_date := due_date, is_done := false
      order_index := next_idx, created_at := now, updated_at := now }
  ({ tasks := s.tasks ++ [t], next_id := s.next_id + 1 }, s.next_id)

/-- The keyword-argument dictionary passed to `TaskRepo.update`:
`None` means the field is not supplied. -/
structure FieldUpdates where
  title : Option String := none
  details : Option String := none
  category : Option String := none
  priority : Option String := none
  due_date : Option String := none
  is_done : Option Bool := none
deriving Repr, DecidableEq

/-- Models Python's `if not fields` test. -/
def FieldUpdates.isEmpty (f : FieldUpdates) : Bool :=
  f.title.isNone && f.details.isNone && f.category.isNone &&
  f.priority.isNone && f.due_date.isNone && f.is_done.isNone

/-- The effect of `UPDATE tasks SET k1=?, ..., updated_at=? WHERE id=?`
on one row whose id matches. -/
def applyFields (f : FieldUpdates) (now : String) (t : Task) : Task :=
  { t with
    title := f.title.getD t.title
    details := f.details.getD t.details
    category := f.category.getD t.category
    priority := f.priority.getD t.priority
    due_date := f.due_date.getD t.due_date
    is_done := f.is_done.getD t.is_done
    updated_at := now }

/-- Models `TaskRepo.update`: returns immediately when no fields are supplied;
otherwise sets the supplied columns plus `updated_at` on every row with
the given id. -/
def update (s : Store) (now : String) (task_id : Nat) (f : FieldUpdates) : Store :=
  if f.isEmpty then s
  else
    { s with tasks :=
        s.tasks.map fun t => if t.id = task_id then applyFields f now t else t }

end TaskRepo

/-- Byte-wise (code-point lexicographic) string-less-than, SQLite's BINARY
collation on text values. -/
def lexLt : List Char → List Char → Bool
  | _, [] => false
  | [], _ :: _ => true
  | a :: as, b :: bs => if a < b then true else if b < a then false else lexLt as bs

def strLt (a b : String) : Bool := lexLt a.toList b.toList

/-- The characters Python's `str.strip()` removes (ASCII whitespace). -/
def isPySpace (c : Char) : Bool :=
  c = ' ' ∨ c = '\t' ∨ c = '\n' ∨ c = '\r' ∨ c = '\x0b' ∨ c = '\x0c'

/-- Models Python's `str.strip()`: drop whitespace from both ends. -/
def strip (s : String) : String :=
  ⟨((s.data.dropWhile isPySpace).reverse.dropWhile isPySpace).reverse⟩

/-- The `{total, done, active, overdue}` record returned by `TaskRepo.stats`. -/
structure Stats where
  total : Nat
  done : Nat
  active : Nat
  overdue : Nat
deriving Repr, DecidableEq

/-- Models `TaskRepo.stats`, with `date.today().strftime("%Y-%m-%d")` passed in as
`today`.  Overdue rows are the not-done rows with a non-empty `due_date`
strictly below `today` in BINARY string order. -/
def TaskRepo.stats (s : Store) (today : String) : Stats :=
  { total := s.tasks.length
    done := (s.tasks.filter fun t => t.is_done).length
    active := (s.tasks.filter fun t => !t.is_done).length
    overdue := (s.tasks.filter fun t =>
      !t.is_done && t.due_date ≠ "" && strLt t.due_date today).length }

/-! ## Query builder (`ToDoApp._query_tasks`, `ToDoApp._sort_by`) -/

/-- SQLite `LIKE` lowercases only ASCII letters. -/
def lowerAscii (c : Char) : Char :=
  if 'A' ≤ c ∧ c ≤ 'Z' then Char.ofNat (c.toNat + 32) else c

/-- SQLite `LIKE` pattern matching (default, no `ESCAPE`): `%` matches any
run of characters (i.e. the rest of the pattern matches some suffix),
`_` any single character, other characters match
ASCII-case-insensitively. -/
def likeMatch : List Char → List Char → Bool
  | [], s => s.isEmpty
  | c :: p, s =>
      if c = '%' then s.tails.any fun t => likeMatch p t
      else if c = '_' then
        match s with
        | [] => false
        | _ :: s' => likeMatch p s'
      else
        match s with
        | [] => false
        | c' :: s' => (lowerAscii c = lowerAscii c') && likeMatch p s'

/-- Models `column LIKE ?` with parameter `pat`. -/
def likeStr (s pat : String) : Bool := likeMatch pat.toList s.toList

/-- ASCII-case-insensitive prefix test on character lists. -/
def prefixCI : List Char → List Char → Bool
  | [], _ => true
  | _ :: _, [] => false
  | c :: q, c' :: s => (lowerAscii c = lowerAscii c') && prefixCI q s

/-- ASCII-case-insensitive substring (infix) test on character lists. -/
def infixCI (q : List Char) : List Char → Bool
  | [] => q.isEmpty
  | c :: s' => prefixCI q (c :: s') || infixCI q s'

/-- ASCII-case-insensitive substring test: `containsCI s q` holds when `q`
occurs inside `s`. -/
def containsCI (s q : String) : Bool := infixCI q.toList s.toList

/-- The search text has no SQL `LIKE` metacharacter. -/
def noWild (q : String) : Bool := q.toList.all fun c => c ≠ '%' && c ≠ '_'

/-- The UI state read by `_query_tasks`: search box, the three filter
comboboxes, and the sort column/direction pair. -/
structure QueryState where
  search : String
  status : String
  priority : String
  category : String
  sort_by : String
  sort_desc : Bool
deriving Repr, DecidableEq

/-- The state the filters start in (`_make_vars` / `_reset_filters` use
`STATUSES[0] = "Активные"`); `allFilters` is the state showing every task. -/
def allFilters : QueryState :=
  { search := "", status := "Все", priority := "Все", category := "Все"
    sort_by := "order_index", sort_desc := false }

/-- Models `ToDoApp._sort_by`: clicking the current column flips the direction,
clicking a different column selects it with ascending direction. -/
def sortByClick (st : QueryState) (column : String) : QueryState :=
  if st.sort_by = column then { st with sort_desc := !st.sort_desc }
  else { st with sort_by := column, sort_desc := false }

/-- The list of `WHERE` conjuncts built by `_query_tasks` (the `where`
list in the source): search (on the trimmed text), status, priority,
category, in that order. -/
def whereClauses (st : QueryState) : List (Task → Bool) :=
  (let q := strip st.search
   if q ≠ "" then
     [fun (t : Task) => likeStr t.title ("%" ++ q ++ "%") ||
               likeStr t.details ("%" ++ q ++ "%") ||
               likeStr t.category ("%" ++ q ++ "%")]
   else []) ++
  (if st.status = "Активные" then [fun (t : Task) => !t.is_done]
   else if st.status = "Выполненные" then [fun (t : Task) => t.is_done]
   else []) ++
  (if st.priority ≠ "Все" then [fun (t : Task) => t.priority == st.priority] else []) ++
  (if st.category ≠ "Все" then [fun (t : Task) => t.category == st.category] else [])

/-- Models `" AND ".join(where)` applied to one row. -/
def rowPred (st : QueryState) (t : Task) : Bool :=
  (whereClauses st).all fun p => p t

/-- Three-way comparison out of SQLite's BINARY text order. -/
def cmpStr (x y : String) : Ordering :=
  if strLt x y then Ordering.lt else if strLt y x then Ordering.gt else Ordering.eq

/-- Value of an `ORDER BY` column on a row, compared per SQLite: integer
columns (`is_done`, `order_index`, `id`) numerically, text columns in
BINARY order.  `Ordering`-valued so the two kinds compose. -/
def cmpCol (col : String) (a b : Task) : Ordering :=
  if col = "title" then cmpStr a.title b.title
  else if col = "category" then cmpStr a.category b.category
  else if col = "priority" then cmpStr a.priority b.priority
  else if col = "due_date" then cmpStr a.due_date b.due_date
  else if col = "is_done" then compare (cond a.is_done 1 0) (cond b.is_done 1 0)
  else if col = "created_at" then cmpStr a.created_at b.created_at
  else if col = "order_index" then compare a.order_index b.order_index
  else if col = "id" then compare a.id b.id
  else Ordering.eq

/-- The comparator of the clause
`{sort_by} {DESC|ASC}, order_index ASC, id ASC`. -/
def taskLe (st : QueryState) (a b : Task) : Bool :=
  let prim := cmpCol st.sort_by a b
  let prim := if st.sort_desc then prim.swap else prim
  match prim with
  | Ordering.lt => true
  | Ordering.gt => false
  | Ordering.eq =>
      match compare a.order_index b.order_index with
      | Ordering.lt => true
      | Ordering.gt => false
      | Ordering.eq => a.id ≤ b.id

/-- Models `ToDoApp._query_tasks` composed with `TaskRepo.fetch`: filter by the
AND of the active clauses, order by the generated `ORDER BY`. -/
def queryTasks (st : QueryState) (s : Store) : List Task :=
  List.insertionSort (fun a b => taskLe st a b = true) (s.tasks.filter (rowPred st))

/-! ## Calendar dates (`datetime.strptime(s, "%Y-%m-%d")`, `date` arithmetic) -/

def isLeap (y : Nat) : Bool := (y % 4 = 0 && y % 100 ≠ 0) || y % 400 = 0

def daysInMonth (y m : Nat) : Nat :=
  if m = 2 then (if isLeap y then 29 else 28)
  else if m = 4 ∨ m = 6 ∨ m = 9 ∨ m = 11 then 30
  else 31

def allDigits (l : List Char) : Bool := l.all fun c => c.isDigit

def digitsToNat (l : List Char) : Nat :=
  l.foldl (fun n c => 10 * n + (c.toNat - '0'.toNat)) 0

/-- Models `datetime.strptime(s, "%Y-%m-%d")` reduced to its observable outcome:
CPython's `%Y` consumes exactly four digits, `%m` and `%d` one or two, the
separators must be literal `-`, nothing may remain, and the constructed
`datetime` requires `1 ≤ year`, `1 ≤ month ≤ 12`,
`1 ≤ day ≤ daysInMonth`.  Returns the `(year, month, day)` triple, or
`none` where Python raises `ValueError`. -/
def parseDate (s : String) : Option (Nat × Nat × Nat) :=
  match s.toList.splitOn '-' with
  | [ys, ms, ds] =>
      if ys.length = 4 ∧ (ms.length = 1 ∨ ms.length = 2) ∧
         (ds.length = 1 ∨ ds.length = 2) ∧
         allDigits ys ∧ allDigits ms ∧ allDigits ds then
        let y := digitsToNat ys
        let m := digitsToNat ms
        let d := digitsToNat ds
        if 1 ≤ y ∧ 1 ≤ m ∧ m ≤ 12 ∧ 1 ≤ d ∧ d ≤ daysInMonth y m then
          some (y, m, d)
        else none
      else none
  | _ => none

/-- Days in the months of year `y` strictly before month `m`. -/
def daysBeforeMonth (y m : Nat) : Nat :=
  (List.range' 1 (m - 1)).foldl (fun n k => n + daysInMonth y k) 0

/-- Proleptic-Gregorian day number (the ordinal behind Python `date`
comparison and `timedelta` arithmetic). -/
def dateRank : Nat × Nat × Nat → Nat
  | (y, m, d) =>
      365 * (y - 1) + (y - 1) / 4 - (y - 1) / 100 + (y - 1) / 400 +
        daysBeforeMonth y m + d

/-- Models `ToDoApp._apply_row_tags`, with `date.today()` passed in as the day
number `today`: "done" for done rows; for not-done rows with a non-empty,
parseable due date, "overdue" / "today" / "soon" by comparison with today
(soon = within the next three days); "high" for High priority. -/
def applyRowTags (row : Task) (today : Nat) : List String :=
  (if row.is_done then ["done"] else []) ++
  (if !row.is_done then
     if row.due_date ≠ "" then
       match parseDate row.due_date with
       | some ymd =>
           let d := dateRank ymd
           if d < today then ["overdue"]
           else if d = today then ["today"]
           else if d ≤ today + 3 then ["soon"]
           else []
       | none => []
     else []
   else []) ++
  (if row.priority = "High" then ["high"] else [])

/-! ## The add/edit dialog (`TaskDialog.on_ok`) -/

/-- The `self.result` dictionary produced by the dialog. -/
structure DialogResult where
  title : String
  details : String
  category : String
  priority : String
  due_date : String
deriving Repr, DecidableEq

/-- Models `TaskDialog.on_ok`, applied to the five entry/combobox variable values:
rejects a blank title (dialog stays open, `result` unset), otherwise
commits the stripped fields — with `priority` hard-coded to `"Medium"`,
ignoring the value of the priority combobox. -/
def TaskDialog.on_ok (varTitle varDetails varCategory varPriority varDue : String) :
    Option DialogResult :=
  let title := strip varTitle
  if title = "" then none
  else
    some { title := title
           details := strip varDetails
           category := strip varCategory
           priority := "Medium"
           due_date := strip varDue }

/-! ## CSV export / import (`on_export_csv`, `on_import_csv`)

A CSV record after `csv.DictReader` is an association of header names to
field values; standard CSV quoting makes the text round trip exact, so the
file layer is modelled as the list of records itself. -/

/-- A parsed CSV record: header-name/value pairs. -/
abbrev CsvRow := List (String × String)

/-- Models `row.get(key)` of a `DictReader` row. -/
def rowGet (r : CsvRow) (key : String) : Option String :=
  (r.find? fun p => p.1 == key).map fun p => p.2

/-- Models `row.get(key, default)`. -/
def rowGetD (r : CsvRow) (key default : String) : String :=
  (rowGet r key).getD default

/-- One exported line of `on_export_csv` (header order
`id,title,details,category,priority,due_date,is_done,created_at,updated_at,order_index`). -/
def toCsvRow (t : Task) : CsvRow :=
  [("id", toString t.id), ("title", t.title), ("details", t.details),
   ("category", t.category), ("priority", t.priority), ("due_date", t.due_date),
   ("is_done", if t.is_done then "1" else "0"),
   ("created_at", t.created_at), ("updated_at", t.updated_at),
   ("order_index", toString t.order_index)]

/-- Models `ToDoApp.on_export_csv`: writes the rows of the current view
(`self._query_tasks()`). -/
def exportCsv (st : QueryState) (s : Store) : List CsvRow :=
  (queryTasks st s).map toCsvRow

/-- The body of the `for row in reader` loop of `on_import_csv`: skip rows
with a blank (stripped) title; coerce a priority outside
`("Low", "Medium", "High")` to `"Medium"`; blank out a non-empty due date
that `strptime` rejects; then `repo.create`. -/
def importRow (now : String) (s : Store) (r : CsvRow) : Store :=
  let title := strip (rowGetD r "title" "")
  if title = "" then s
  else
    let details := rowGetD r "details" ""
    let category := rowGetD r "category" ""
    let priority :=
      match rowGet r "priority" with
      | some p => if p = "Low" ∨ p = "Medium" ∨ p = "High" then p else "Medium"
      | none => "Medium"
    let due0 := strip (rowGetD r "due_date" "")
    let due_date :=
      if due0 = "" then due0
      else if (parseDate due0).isSome then due0 else ""
    (TaskRepo.create s now title details category priority due_date).1

/-- Models `ToDoApp.on_import_csv` after the file is opened: process every record
in order; no record aborts the loop. -/
def importCsv (now : String) (s : Store) (rows : List CsvRow) : Store :=
  rows.foldl (importRow now) s

/-! ## Sequences of creations (for the 1..N property) -/

/-- The argument tuple of one `TaskRepo.create` call. -/
structure CreateArgs where
  now : String
  title : String
  details : String
  category : String
  priority : String
  due_date : String
deriving Repr, DecidableEq

/-- Creating a sequence of tasks, one `TaskRepo.create` call per element. -/
def createMany (s : Store) (items : List CreateArgs) : Store :=
  items.foldl
    (fun s a => (TaskRepo.create s a.now a.title a.details a.category a.priority a.due_date).1)
    s

-- sanity checks on the store model
example :
    (TaskRepo.create emptyStore "T0" "a" "" "" "Medium" "").2 = 1 := by decide
example :
    (TaskRepo.stats { tasks := [{ id := 1, title := "a", details := "", category := ""
                                  priority := "Medium", due_date := "2025-10-11"
                                  is_done := false, order_index := 1
                                  created_at := "", updated_at := "" }]
                      next_id := 2 } "2025-10-12").overdue = 1 := by decide

/-! ## Helper lemmas -/

theorem maxOrderIndex_eq_foldl_map (s : Store) :
    maxOrderIndex s = (s.tasks.map Task.order_index).foldl max 0 := by
  simp [maxOrderIndex, List.foldl_map]

theorem foldl_max_range' (n : Nat) : (List.range' 1 n).foldl max 0 = n := by
  induction n with
  | zero => rfl
  | succ k ih =>
      rw [List.range'_concat, List.foldl_append, ih]
      simp [List.foldl]
      omega

/-- The `order_index` column after one `create`. -/
theorem create_map_order_index
    (s : Store) (a : CreateArgs) :
    ((TaskRepo.create s a.now a.title a.details a.category a.priority a.due_date).1.tasks.map
        Task.order_index) =
      s.tasks.map Task.order_index ++ [maxOrderIndex s + 1] := by
  simp [TaskRepo.create]

theorem createMany_order_index (items : List CreateArgs) :
    ∀ (s : Store) (n : Nat), s.tasks.map Task.order_index = List.range' 1 n →
      (createMany s items).tasks.map Task.order_index = List.range' 1 (n + items.length) := by
  induction items with
  | nil => intro s n h; simpa [createMany] using h
  | cons a rest ih =>
      intro s n h
      have hmax : maxOrderIndex s = n := by
        rw [maxOrderIndex_eq_foldl_map, h, foldl_max_range']
      have hstep :
          ((TaskRepo.create s a.now a.title a.details a.category a.priority
              a.due_date).1.tasks.map Task.order_index) = List.range' 1 (n + 1) := by
        rw [create_map_order_index, h, hmax, List.range'_concat]
        simp [Nat.add_comm]
      have := ih _ (n + 1) hstep
      simpa [createMany, Nat.add_assoc, Nat.add_comm, Nat.add_left_comm] using this

/-! ## C1 -/

/-- C1. `create` appends exactly one task, whose `order_index` is the
maximum existing `order_index` plus 1 (hence 1 when the store is empty),
whose `created_at` and `updated_at` are the current time, and whose id is
the value `create` returns; starting from the empty store, a sequence of
`N` creations yields `order_index` values exactly `1..N`, distinct and
strictly increasing. -/
theorem create_order_index_spec
    (s : Store) (now title details category priority due_date : String)
    (items : List CreateArgs) :
    (∃ t : Task,
      (TaskRepo.create s now title details category priority due_date).1.tasks
          = s.tasks ++ [t] ∧
      t.order_index = maxOrderIndex s + 1 ∧
      (s.tasks = [] → t.order_index = 1) ∧
      t.created_at = now ∧ t.updated_at = now ∧
      (TaskRepo.create s now title details category priority due_date).2 = t.id) ∧
    (createMany emptyStore items).tasks.map Task.order_index
        = List.range' 1 items.length ∧
    ((createMany emptyStore items).tasks.map Task.order_index).Nodup ∧
    List.Pairwise (fun x y => x < y)
      ((createMany emptyStore items).tasks.map Task.order_index) := by
  have hrange : (createMany emptyStore items).tasks.map Task.order_index
      = List.range' 1 items.length := by
    simpa using createMany_order_index items emptyStore 0 (by simp [emptyStore])
  refine ⟨?_, hrange, ?_, ?_⟩
  · refine ⟨_, rfl, rfl, ?_, rfl, rfl, rfl⟩
    intro h
    simp [maxOrderIndex, h]
  · rw [hrange]
    exact List.nodup_range' 1 items.length
  · rw [hrange]
    exact List.pairwise_lt_range' 1 items.length

/-- Witness for C1 at a concrete store and a two-element creation sequence. -/
theorem create_order_index_spec_witness :
    (∃ t : Task,
      (TaskRepo.create emptyStore "2025-01-01T00:00:00" "t" "d" "c" "Medium" "").1.tasks
          = emptyStore.tasks ++ [t] ∧
      t.order_index = maxOrderIndex emptyStore + 1 ∧
      (emptyStore.tasks = [] → t.order_index = 1) ∧
      t.created_at = "2025-01-01T00:00:00" ∧ t.updated_at = "2025-01-01T00:00:00" ∧
      (TaskRepo.create emptyStore "2025-01-01T00:00:00" "t" "d" "c" "Medium" "").2 = t.id) ∧
    (createMany emptyStore
        [⟨"n1", "a", "", "", "Low", ""⟩, ⟨"n2", "b", "", "", "High", ""⟩]).tasks.map
          Task.order_index = List.range' 1 2 ∧
    ((createMany emptyStore
        [⟨"n1", "a", "", "", "Low", ""⟩, ⟨"n2", "b", "", "", "High", ""⟩]).tasks.map
          Task.order_index).Nodup ∧
    List.Pairwise (fun x y => x < y)
      ((createMany emptyStore
        [⟨"n1", "a", "", "", "Low", ""⟩, ⟨"n2", "b", "", "", "High", ""⟩]).tasks.map
          Task.order_index) :=
  create_order_index_spec emptyStore "2025-01-01T00:00:00" "t" "d" "c" "Medium" ""
    [⟨"n1", "a", "", "", "Low", ""⟩, ⟨"n2", "b", "", "", "High", ""⟩]

/-! ## C2 -/

/-- C2. `update` with an empty field set leaves the store untouched
(every field of every task, `updated_at` included); with a non-empty field
set it keeps the task list's length, rewrites only the rows with the given
id — setting exactly the supplied fields plus `updated_at`, preserving
`id`, `created_at`, `order_index` and every unsupplied field — and leaves
every other row exactly as it was. -/
theorem update_frame_spec
    (s : Store) (now : String) (tid : Nat) (f : TaskRepo.FieldUpdates) :
    (f.isEmpty = true → TaskRepo.update s now tid f = s) ∧
    (f.isEmpty = false →
      (TaskRepo.update s now tid f).next_id = s.next_id ∧
      (TaskRepo.update s now tid f).tasks.length = s.tasks.length ∧
      ∀ (i : Nat) (h : i < s.tasks.length) (h2 : i < (TaskRepo.update s now tid f).tasks.length),
        (((s.tasks.get ⟨i, h⟩).id ≠ tid →
            (TaskRepo.update s now tid f).tasks.get ⟨i, h2⟩ = s.tasks.get ⟨i, h⟩) ∧
         ((s.tasks.get ⟨i, h⟩).id = tid →
            ((TaskRepo.update s now tid f).tasks.get ⟨i, h2⟩) =
              { s.tasks.get ⟨i, h⟩ with
                title := f.title.getD (s.tasks.get ⟨i, h⟩).title
                details := f.details.getD (s.tasks.get ⟨i, h⟩).details
                category := f.category.getD (s.tasks.get ⟨i, h⟩).category
                priority := f.priority.getD (s.tasks.get ⟨i, h⟩).priority
                due_date := f.due_date.getD (s.tasks.get ⟨i, h⟩).due_date
                is_done := f.is_done.getD (s.tasks.get ⟨i, h⟩).is_done
                updated_at := now }))) := by
  constructor
  · intro he; simp [TaskRepo.update, he]
  · intro he
    refine ⟨by simp [TaskRepo.update, he], by simp [TaskRepo.update, he], ?_⟩
    intro i h h2
    constructor
    · intro hne
      simp only [List.get_eq_getElem] at hne
      simp [TaskRepo.update, he, List.get_eq_getElem, List.getElem_map, hne]
    · intro heq
      simp only [List.get_eq_getElem] at heq
      simp [TaskRepo.update, he, List.get_eq_getElem, List.getElem_map, heq,
        TaskRepo.applyFields]

/-- A concrete task shared by the witnesses. -/
def sampleTask : Task :=
  { id := 1, title := "wash", details := "dd", category := "home",
    priority := "High", due_date := "2025-10-10", is_done := false,
    order_index := 1, created_at := "c1", updated_at := "u1" }

/-- A concrete store shared by the witnesses: two tasks, ids 1 and 2. -/
def sampleStore : Store :=
  { tasks :=
      [{ id := 1, title := "wash", details := "dd", category := "home",
         priority := "High", due_date := "2025-10-10", is_done := false,
         order_index := 1, created_at := "c1", updated_at := "u1" },
       { id := 2, title := "code", details := "", category := "work",
         priority := "Low", due_date := "", is_done := true,
         order_index := 2, created_at := "c2", updated_at := "u2" }]
    next_id := 3 }

/-- Witness for C2: an empty update is the identity on `sampleStore`, and a
title-only update of task 1 rewrites row 0 to the expected record. -/
theorem update_frame_spec_witness :
    (TaskRepo.update sampleStore "now2" 1 {} = sampleStore) ∧
    ∀ (h : 0 < sampleStore.tasks.length)
      (h2 : 0 < (TaskRepo.update sampleStore "now2" 1 { title := some "paint" }).tasks.length),
      (TaskRepo.update sampleStore "now2" 1 { title := some "paint" }).tasks.get ⟨0, h2⟩ =
        { sampleStore.tasks.get ⟨0, h⟩ with title := "paint", updated_at := "now2" } := by
  constructor
  · exact (update_frame_spec sampleStore "now2" 1 {}).1 (by decide)
  · intro h h2
    have := (((update_frame_spec sampleStore "now2" 1
        { title := some "paint" }).2 (by decide)).2.2 0 h h2).2 rfl
    simpa using this

/-! ## C4: order-theoretic facts about the generated comparator -/

theorem lexLt_irrefl (x : List Char) : lexLt x x = false := by
  induction x with
  | nil => rfl
  | cons c x ih => simp [lexLt, ih]

theorem lexLt_asymm : ∀ {x y : List Char}, lexLt x y = true → lexLt y x = false
  | _, [], h => by simp [lexLt] at h
  | [], _ :: _, _ => rfl
  | a :: x, b :: y, h => by
      by_cases hab : a < b
      · simp [lexLt, lt_asymm hab, hab]
      · by_cases hba : b < a
        · simp [lexLt, hab, hba] at h
        · have hx : lexLt x y = true := by simpa [lexLt, hab, hba] using h
          simp [lexLt, hab, hba, lexLt_asymm hx]

theorem lexLt_trans : ∀ {x y z : List Char},
    lexLt x y = true → lexLt y z = true → lexLt x z = true
  | _, _, [], _, h2 => by simp [lexLt] at h2
  | [], _, _ :: _, _, _ => rfl
  | _ :: _, [], _ :: _, h1, _ => by simp [lexLt] at h1
  | a :: x, b :: y, c :: z, h1, h2 => by
      by_cases hab : a < b <;> by_cases hbc : b < c
      · simp [lexLt, lt_trans hab hbc]
      · by_cases hcb : c < b
        · simp [lexLt, hbc, hcb] at h2
        · have hbceq : b = c := le_antisymm (not_lt.mp hcb) (not_lt.mp hbc)
          subst hbceq
          simp [lexLt, hab]
      · by_cases hba : b < a
        · simp [lexLt, hab, hba] at h1
        · have habq : a = b := le_antisymm (not_lt.mp hba) (not_lt.mp hab)
          subst habq
          simp [lexLt, hbc]
      · by_cases hba : b < a
        · simp [lexLt, hab, hba] at h1
        · by_cases hcb : c < b
          · simp [lexLt, hbc, hcb] at h2
          · have h1' : lexLt x y = true := by simpa [lexLt, hab, hba] using h1
            have h2' : lexLt y z = true := by simpa [lexLt, hbc, hcb] using h2
            have habq : a = b := le_antisymm (not_lt.mp hba) (not_lt.mp hab)
            subst habq
            simp [lexLt, hbc, hcb, lexLt_trans h1' h2']

theorem lexLt_connex : ∀ {x y : List Char},
    lexLt x y = false → lexLt y x = false → x = y
  | [], [], _, _ => rfl
  | [], _ :: _, h1, _ => by simp [lexLt] at h1
  | _ :: _, [], _, h2 => by simp [lexLt] at h2
  | a :: x, b :: y, h1, h2 => by
      by_cases hab : a < b
      · simp [lexLt, hab] at h1
      · by_cases hba : b < a
        · simp [lexLt, hba] at h2
        · have habq : a = b := le_antisymm (not_lt.mp hba) (not_lt.mp hab)
          subst habq
          have h1' : lexLt x y = false := by simpa [lexLt, hab] using h1
          have h2' : lexLt y x = false := by simpa [lexLt, hab] using h2
          rw [lexLt_connex h1' h2']

theorem strLt_irrefl (x : String) : strLt x x = false := lexLt_irrefl x.toList

theorem cmpStr_eq_iff (x y : String) : cmpStr x y = Ordering.eq ↔ x = y := by
  constructor
  · intro h
    by_cases h1 : strLt x y = true
    · simp [cmpStr, h1] at h
    · by_cases h2 : strLt y x = true
      · simp [cmpStr, h1, h2] at h
      · simp only [Bool.not_eq_true] at h1 h2
        have hl := lexLt_connex (x := x.toList) (y := y.toList) h1 h2
        cases x with
        | mk dx =>
            cases y with
            | mk dy => exact congrArg String.mk hl
  · intro h
    subst h
    simp [cmpStr, strLt_irrefl]

theorem cmpStr_swap (x y : String) : cmpStr y x = (cmpStr x y).swap := by
  by_cases h1 : strLt x y = true
  · have h2 : strLt y x = false := lexLt_asymm h1
    simp [cmpStr, h1, h2, Ordering.swap]
  · by_cases h2 : strLt y x = true
    · simp [cmpStr, h1, h2, Ordering.swap]
    · simp only [Bool.not_eq_true] at h1 h2
      simp [cmpStr, h1, h2, Ordering.swap]

theorem strLt_of_cmpStr_lt {x y : String} (h : cmpStr x y = Ordering.lt) :
    strLt x y = true := by
  by_cases h1 : strLt x y = true
  · exact h1
  · exfalso
    by_cases h2 : strLt y x = true <;> simp [cmpStr, h1, h2] at h

theorem cmpStr_lt_trans {x y z : String} (h1 : cmpStr x y = Ordering.lt)
    (h2 : cmpStr y z = Ordering.lt) : cmpStr x z = Ordering.lt := by
  have hx := strLt_of_cmpStr_lt h1
  have hy := strLt_of_cmpStr_lt h2
  have hxz : strLt x z = true := lexLt_trans hx hy
  simp [cmpStr, hxz]

theorem natCompare_swap (a b : Nat) : compare b a = (compare a b).swap := by
  rcases Nat.lt_trichotomy a b with h | h | h
  · rw [Nat.compare_eq_lt.mpr h, Nat.compare_eq_gt.mpr h]; rfl
  · subst h
    have he : compare a a = Ordering.eq := Nat.compare_eq_eq.mpr rfl
    rw [he]; rfl
  · rw [Nat.compare_eq_gt.mpr h, Nat.compare_eq_lt.mpr h]; rfl

theorem cmpCol_swap (col : String) (a b : Task) :
    cmpCol col b a = (cmpCol col a b).swap := by
  unfold cmpCol
  split_ifs <;> first | apply cmpStr_swap | apply natCompare_swap | rfl

theorem cmpCol_eq_congr_right {col : String} {a b : Task}
    (h : cmpCol col a b = Ordering.eq) (c : Task) :
    cmpCol col a c = cmpCol col b c := by
  unfold cmpCol at h ⊢
  split_ifs at h ⊢ <;>
    first
    | rw [(cmpStr_eq_iff _ _).mp h]
    | rw [Nat.compare_eq_eq.mp h]
    | rfl

theorem cmpCol_lt_trans {col : String} {a b c : Task}
    (h1 : cmpCol col a b = Ordering.lt) (h2 : cmpCol col b c = Ordering.lt) :
    cmpCol col a c = Ordering.lt := by
  unfold cmpCol at h1 h2 ⊢
  split_ifs at h1 h2 ⊢ <;>
    first
    | exact cmpStr_lt_trans h1 h2
    | (rw [Nat.compare_eq_lt] at h1 h2 ⊢; omega)
    | simp_all

/-- The direction-adjusted primary comparison of the `ORDER BY` clause. -/
def dirCmp (st : QueryState) (a b : Task) : Ordering :=
  if st.sort_desc then (cmpCol st.sort_by a b).swap else cmpCol st.sort_by a b

theorem taskLe_def (st : QueryState) (a b : Task) :
    taskLe st a b =
      match dirCmp st a b with
      | Ordering.lt => true
      | Ordering.gt => false
      | Ordering.eq =>
          match compare a.order_index b.order_index with
          | Ordering.lt => true
          | Ordering.gt => false
          | Ordering.eq => decide (a.id ≤ b.id) := rfl

theorem dirCmp_swap (st : QueryState) (a b : Task) :
    dirCmp st b a = (dirCmp st a b).swap := by
  unfold dirCmp
  cases st.sort_desc <;> simp [cmpCol_swap st.sort_by a b]

theorem dirCmp_eq_congr_right {st : QueryState} {a b : Task}
    (h : dirCmp st a b = Ordering.eq) (c : Task) :
    dirCmp st a c = dirCmp st b c := by
  unfold dirCmp at h ⊢
  cases hd : st.sort_desc <;> rw [hd] at h <;>
    simp only [Bool.false_eq_true, if_false, if_true] at h ⊢
  · rw [cmpCol_eq_congr_right h c]
  · have h' : cmpCol st.sort_by a b = Ordering.eq := by
      cases ho : cmpCol st.sort_by a b <;> rw [ho] at h <;> simp_all [Ordering.swap]
    rw [cmpCol_eq_congr_right h' c]

theorem dirCmp_lt_trans {st : QueryState} {a b c : Task}
    (h1 : dirCmp st a b = Ordering.lt) (h2 : dirCmp st b c = Ordering.lt) :
    dirCmp st a c = Ordering.lt := by
  unfold dirCmp at h1 h2 ⊢
  cases hd : st.sort_desc <;> rw [hd] at h1 h2 <;>
    simp only [Bool.false_eq_true, if_false, if_true] at h1 h2 ⊢
  · exact cmpCol_lt_trans h1 h2
  · have h1' : cmpCol st.sort_by b a = Ordering.lt := by
      rw [cmpCol_swap]
      cases ho : cmpCol st.sort_by a b <;> rw [ho] at h1 <;> simp_all [Ordering.swap]
    have h2' : cmpCol st.sort_by c b = Ordering.lt := by
      rw [cmpCol_swap]
      cases ho : cmpCol st.sort_by b c <;> rw [ho] at h2 <;> simp_all [Ordering.swap]
    rw [cmpCol_swap, cmpCol_lt_trans h2' h1']
    rfl

theorem dirCmp_swap_eq {st : QueryState} {a b : Task}
    (h : dirCmp st a b = Ordering.eq) : dirCmp st b a = Ordering.eq := by
  rw [dirCmp_swap st a b, h]
  rfl

/-- The comparator of the generated `ORDER BY` clause is total. -/
theorem taskLe_total (st : QueryState) (a b : Task) :
    taskLe st a b = true ∨ taskLe st b a = true := by
  rw [taskLe_def, taskLe_def, dirCmp_swap st a b]
  cases ho : dirCmp st a b <;> simp [Ordering.swap]
  rcases Nat.lt_trichotomy a.order_index b.order_index with h | h | h
  · left
    simp [Nat.compare_eq_lt.mpr h]
  · have hab : compare a.order_index b.order_index = Ordering.eq := Nat.compare_eq_eq.mpr h
    have hba : compare b.order_index a.order_index = Ordering.eq :=
      Nat.compare_eq_eq.mpr h.symm
    simp [hab, hba]
    omega
  · right
    simp [Nat.compare_eq_lt.mpr h]

/-- From the `eq`-branch of the comparator, the decoded lexicographic
tiebreak on `(order_index, id)`. -/
theorem taskLe_tie {st : QueryState} {a b : Task}
    (hab : dirCmp st a b = Ordering.eq) (h : taskLe st a b = true) :
    a.order_index < b.order_index ∨
      (a.order_index = b.order_index ∧ a.id ≤ b.id) := by
  rw [taskLe_def, hab] at h
  rcases Nat.lt_trichotomy a.order_index b.order_index with ho | ho | ho
  · exact Or.inl ho
  · right
    refine ⟨ho, ?_⟩
    rw [Nat.compare_eq_eq.mpr ho] at h
    simpa using h
  · exfalso
    rw [Nat.compare_eq_gt.mpr ho] at h
    simp at h

theorem taskLe_of_tie {st : QueryState} {a b : Task}
    (hab : dirCmp st a b = Ordering.eq)
    (h : a.order_index < b.order_index ∨
      (a.order_index = b.order_index ∧ a.id ≤ b.id)) :
    taskLe st a b = true := by
  rw [taskLe_def, hab]
  rcases h with h | ⟨h, hid⟩
  · simp [Nat.compare_eq_lt.mpr h]
  · rw [Nat.compare_eq_eq.mpr h]
    simpa using hid

/-- The comparator of the generated `ORDER BY` clause is transitive. -/
theorem taskLe_trans (st : QueryState) (a b c : Task)
    (h1 : taskLe st a b = true) (h2 : taskLe st b c = true) :
    taskLe st a c = true := by
  cases hab : dirCmp st a b with
  | gt => rw [taskLe_def, hab] at h1; simp at h1
  | lt =>
      cases hbc : dirCmp st b c with
      | gt => rw [taskLe_def, hbc] at h2; simp at h2
      | lt => rw [taskLe_def, dirCmp_lt_trans hab hbc]
      | eq =>
          have hac : dirCmp st a c = Ordering.lt := by
            have h3 : dirCmp st c a = dirCmp st b a :=
              dirCmp_eq_congr_right (dirCmp_swap_eq hbc) a
            have h4 : dirCmp st a c = (dirCmp st c a).swap := by
              rw [dirCmp_swap st c a]
            rw [h4, h3, dirCmp_swap st a b, hab]
            rfl
          rw [taskLe_def, hac]
  | eq =>
      cases hbc : dirCmp st b c with
      | gt => rw [taskLe_def, hbc] at h2; simp at h2
      | lt =>
          have hac : dirCmp st a c = Ordering.lt := by
            rw [dirCmp_eq_congr_right hab c, hbc]
          rw [taskLe_def, hac]
      | eq =>
          have hac : dirCmp st a c = Ordering.eq := by
            rw [dirCmp_eq_congr_right hab c, hbc]
          have k1 := taskLe_tie hab h1
          have k2 := taskLe_tie hbc h2
          apply taskLe_of_tie hac
          rcases k1 with k1 | ⟨k1, k1id⟩ <;> rcases k2 with k2 | ⟨k2, k2id⟩
          · exact Or.inl (lt_trans k1 k2)
          · exact Or.inl (by omega)
          · exact Or.inl (by omega)
          · exact Or.inr ⟨by omega, le_trans k1id k2id⟩

/-! ## C4 -/

/-- A store with two tasks tied on `title`, for the witness. -/
def tieStore : Store :=
  { tasks := [{ sampleTask with id := 1, title := "same", order_index := 2 },
              { sampleTask with id := 2, title := "same", order_index := 1 }]
    next_id := 3 }

/-- C4. The ordering clause generated for every query is the chosen sort
column with the chosen direction followed by `order_index` ascending then
`id` ascending: its comparator orders any two rows equal on the
(direction-adjusted) primary column by `order_index`, then `id` — for
either direction — and consequently any two rows of a query result that
are equal on the primary sort column appear in `order_index`-then-`id`
order; `_sort_by` clicked on the current column flips the direction (so
clicking it twice restores the state, in particular the original
ascending order), while clicking a different column selects it with
ascending direction. -/
theorem sort_clause_spec (st : QueryState) (col : String) (a b : Task) (s : Store) :
    (cmpCol st.sort_by a b = Ordering.eq →
      (taskLe st a b = true ↔
        (a.order_index < b.order_index ∨
         (a.order_index = b.order_index ∧ a.id ≤ b.id)))) ∧
    (st.sort_by = col →
      sortByClick st col = { st with sort_desc := !st.sort_desc }) ∧
    (st.sort_by = col → sortByClick (sortByClick st col) col = st) ∧
    (st.sort_by ≠ col →
      sortByClick st col = { st with sort_by := col, sort_desc := false }) ∧
    (∀ (i j : Nat) (hi : i < (queryTasks st s).length)
        (hj : j < (queryTasks st s).length), i < j →
      cmpCol st.sort_by ((queryTasks st s).get ⟨i, hi⟩)
          ((queryTasks st s).get ⟨j, hj⟩) = Ordering.eq →
      (((queryTasks st s).get ⟨i, hi⟩).order_index
          < ((queryTasks st s).get ⟨j, hj⟩).order_index ∨
       (((queryTasks st s).get ⟨i, hi⟩).order_index
           = ((queryTasks st s).get ⟨j, hj⟩).order_index ∧
        ((queryTasks st s).get ⟨i, hi⟩).id ≤ ((queryTasks st s).get ⟨j, hj⟩).id))) := by
  refine ⟨?_, ?_, ?_, ?_, ?_⟩
  · intro heq
    have hswap : (if st.sort_desc then (cmpCol st.sort_by a b).swap
        else cmpCol st.sort_by a b) = Ordering.eq := by
      cases st.sort_desc <;> simp [heq, Ordering.swap]
    simp only [taskLe, hswap]
    rcases Nat.lt_trichotomy a.order_index b.order_index with h | h | h
    · rw [Nat.compare_eq_lt.mpr h]
      simp
      omega
    · rw [h]
      simp [Nat.compare_eq_eq.mpr rfl, h]
    · rw [Nat.compare_eq_gt.mpr h]
      simp
      omega
  · intro h; subst h; simp [sortByClick]
  · intro h; subst h; simp [sortByClick]
  · intro h; simp [sortByClick, h]
  · intro i j hi hj hij heq
    have hsorted : List.Sorted (fun x y => taskLe st x y = true) (queryTasks st s) := by
      rw [queryTasks]
      exact @List.sorted_insertionSort Task (fun x y => taskLe st x y = true) _
        ⟨fun x y => taskLe_total st x y⟩ ⟨fun x y z => taskLe_trans st x y z⟩ _
    have hle : taskLe st ((queryTasks st s).get ⟨i, hi⟩)
        ((queryTasks st s).get ⟨j, hj⟩) = true :=
      hsorted.rel_get_of_lt (by simpa using hij)
    have hdir : dirCmp st ((queryTasks st s).get ⟨i, hi⟩)
        ((queryTasks st s).get ⟨j, hj⟩) = Ordering.eq := by
      unfold dirCmp
      simp only [List.get_eq_getElem] at heq
      cases st.sort_desc <;> simp [heq, Ordering.swap]
    exact taskLe_tie hdir hle

/-- Witness for C4 at concrete states and rows: two rows tied on `title`
are ordered by `order_index` (both at comparator level and in the rows
`queryTasks` returns on `tieStore`), and the click transitions behave as
stated on a concrete state. -/
theorem sort_clause_spec_witness :
    (taskLe { allFilters with sort_by := "title", sort_desc := true }
        { sampleTask with title := "same", order_index := 1, id := 7 }
        { sampleTask with title := "same", order_index := 2, id := 3 } = true) ∧
    sortByClick { allFilters with sort_by := "title" } "title" =
      { allFilters with sort_by := "title", sort_desc := true } ∧
    sortByClick (sortByClick { allFilters with sort_by := "title" } "title") "title" =
      { allFilters with sort_by := "title" } ∧
    sortByClick { allFilters with sort_by := "title" } "due_date" =
      { allFilters with sort_by := "due_date", sort_desc := false } ∧
    (((queryTasks { allFilters with sort_by := "title" } tieStore).get
          ⟨0, by decide⟩).order_index
        < ((queryTasks { allFilters with sort_by := "title" } tieStore).get
          ⟨1, by decide⟩).order_index ∨
     (((queryTasks { allFilters with sort_by := "title" } tieStore).get
          ⟨0, by decide⟩).order_index
         = ((queryTasks { allFilters with sort_by := "title" } tieStore).get
          ⟨1, by decide⟩).order_index ∧
      ((queryTasks { allFilters with sort_by := "title" } tieStore).get
          ⟨0, by decide⟩).id
        ≤ ((queryTasks { allFilters with sort_by := "title" } tieStore).get
          ⟨1, by decide⟩).id)) := by
  have h := sort_clause_spec { allFilters with sort_by := "title", sort_desc := true } "title"
    { sampleTask with title := "same", order_index := 1, id := 7 }
    { sampleTask with title := "same", order_index := 2, id := 3 } sampleStore
  refine ⟨(h.1 (by decide)).mpr (by decide), ?_, ?_, ?_, ?_⟩
  · exact (sort_clause_spec { allFilters with sort_by := "title" } "title"
      { sampleTask with title := "x" } { sampleTask with title := "y" } sampleStore).2.1 rfl
  · exact (sort_clause_spec { allFilters with sort_by := "title" } "title"
      { sampleTask with title := "x" } { sampleTask with title := "y" } sampleStore).2.2.1 rfl
  · exact (sort_clause_spec { allFilters with sort_by := "title" } "due_date"
      { sampleTask with title := "x" } { sampleTask with title := "y" } sampleStore).2.2.2.1
      (by decide)
  · exact (sort_clause_spec { allFilters with sort_by := "title" } "title"
      { sampleTask with title := "x" } { sampleTask with title := "y" } tieStore).2.2.2.2
      0 1 (by decide) (by decide) (by decide) (by decide)

/-! ## C5 -/

/-- C5. `stats().overdue` counts exactly the tasks that are not done,
have a non-empty due date, and whose due date is lexicographically below
today's `YYYY-MM-DD` string; adding a not-done task whose due date is
below today (e.g. yesterday) raises `overdue` by exactly 1 over the store
without it, and marking that task done lowers `overdue` by 1 while
leaving `total` unchanged.  (`hfresh` is the `AUTOINCREMENT` invariant:
every stored id is below the counter.) -/
theorem stats_overdue_spec
    (s : Store) (now now2 today title details category priority due : String)
    (hdue : due ≠ "") (hlt : strLt due today = true)
    (hfresh : ∀ t ∈ s.tasks, t.id < s.next_id) :
    ((TaskRepo.stats s today).overdue =
       (s.tasks.filter fun t =>
         !t.is_done && t.due_date ≠ "" && strLt t.due_date today).length) ∧
    ((TaskRepo.stats (TaskRepo.create s now title details category priority due).1
        today).overdue = (TaskRepo.stats s today).overdue + 1) ∧
    ((TaskRepo.stats (TaskRepo.update
        (TaskRepo.create s now title details category priority due).1 now2
        (TaskRepo.create s now title details category priority due).2
        { is_done := some true }) today).overdue =
      (TaskRepo.stats (TaskRepo.create s now title details category priority due).1
        today).overdue - 1) ∧
    ((TaskRepo.stats (TaskRepo.update
        (TaskRepo.create s now title details category priority due).1 now2
        (TaskRepo.create s now title details category priority due).2
        { is_done := some true }) today).total =
      (TaskRepo.stats (TaskRepo.create s now title details category priority due).1
        today).total) := by
  have hupd : (TaskRepo.update
      (TaskRepo.create s now title details category priority due).1 now2
      (TaskRepo.create s now title details category priority due).2
      { is_done := some true }).tasks =
      s.tasks ++ [TaskRepo.applyFields { is_done := some true } now2
        { id := s.next_id, title := title, details := details, category := category
          priority := priority, due_date := due, is_done := false
          order_index := maxOrderIndex s + 1, created_at := now, updated_at := now }] := by
    simp only [TaskRepo.create, TaskRepo.update]
    rw [if_neg (by simp [TaskRepo.FieldUpdates.isEmpty])]
    simp only [List.map_append, List.map_cons, List.map_nil, if_true]
    congr 1
    have : ∀ t ∈ s.tasks,
        (if t.id = s.next_id then TaskRepo.applyFields { is_done := some true } now2 t
         else t) = t := by
      intro t ht
      exact if_neg (Nat.ne_of_lt (hfresh t ht))
    rw [List.map_congr_left this]
    simp
  refine ⟨rfl, ?_, ?_, ?_⟩
  · simp [TaskRepo.create, TaskRepo.stats, List.filter_append, hdue, hlt]
  · simp only [TaskRepo.stats]
    rw [hupd]
    simp [TaskRepo.create, List.filter_append, TaskRepo.applyFields, hdue, hlt]
  · simp only [TaskRepo.stats]
    rw [hupd]
    simp [TaskRepo.create]

/-- Witness for C5: yesterday's date string below today's, on `sampleStore`
(ids 1 and 2 are below the counter 3). -/
theorem stats_overdue_spec_witness :
    ("2025-10-11" : String) ≠ "" ∧ strLt "2025-10-11" "2025-10-12" = true ∧
    ((TaskRepo.stats (TaskRepo.create sampleStore "n" "t" "d" "c" "Medium"
        "2025-10-11").1 "2025-10-12").overdue =
      (TaskRepo.stats sampleStore "2025-10-12").overdue + 1) := by
  have h := stats_overdue_spec sampleStore "n" "n2" "2025-10-12" "t" "d" "c" "Medium"
    "2025-10-11" (by decide) (by decide) (by decide)
  exact ⟨by decide, by decide, h.2.1⟩

/-! ## C9 -/

/-- C9 (falsified by the code). The spec's intended contract is that
the priority persisted from the add/edit dialog equals the one selected in
the priority combobox; the dialog instead hard-codes `"Medium"` (seeded
defect at `TaskDialog.on_ok`).  With `"High"` selected, the committed
result carries `"Medium"`, not `"High"`. -/
theorem dialog_priority_code_bug :
    (TaskDialog.on_ok "Task" "" "" "High" "").map DialogResult.priority = some "Medium" ∧
    (TaskDialog.on_ok "Task" "" "" "High" "").map DialogResult.priority ≠ some "High" := by
  decide

/-- Looking a key up after deleting all pairs with a different key `bad`
is unchanged. -/
theorem rowGet_filter_ne (r : CsvRow) (bad k : String) (h : k ≠ bad) :
    rowGet (r.filter fun p => p.1 ≠ bad) k = rowGet r k := by
  induction r with
  | nil => rfl
  | cons p rest ih =>
      by_cases hp : p.1 = bad
      · have hpk : (p.1 == k) = false := by
          simp only [beq_eq_false_iff_ne]
          intro hh
          exact h (by rw [← hh]; exact hp)
        have hcond : (decide (p.1 ≠ bad)) = false := by simp [hp]
        rw [List.filter_cons, hcond, if_neg (by simp), ih]
        simp only [rowGet, List.find?_cons, hpk]
      · have hcond : (decide (p.1 ≠ bad)) = true := by simp [hp]
        rw [List.filter_cons, hcond, if_pos rfl]
        cases hpk : (p.1 == k) with
        | true => simp only [rowGet, List.find?_cons, hpk]
        | false =>
            simp only [rowGet, List.find?_cons, hpk]
            simpa only [rowGet] using ih

/-! ## C10 -/

/-- C10. Every task inserted by `create` — hence every row inserted by
the CSV import, which funnels through `create` — starts with
`is_done = false`; and the import's outcome is unchanged when every
`is_done` column is deleted from the file, i.e. the import never reads
that column. -/
theorem import_never_preserves_is_done
    (s : Store) (now title details category priority due : String)
    (rows : List CsvRow) :
    (∃ t : Task,
      (TaskRepo.create s now title details category priority due).1.tasks
          = s.tasks ++ [t] ∧ t.is_done = false) ∧
    (∀ t ∈ (importCsv now s rows).tasks, t ∈ s.tasks ∨ t.is_done = false) ∧
    (importCsv now s
        (rows.map fun r => r.filter fun p => p.1 ≠ "is_done") = importCsv now s rows) := by
  refine ⟨⟨_, rfl, rfl⟩, ?_, ?_⟩
  · intro t ht
    induction rows generalizing s with
    | nil => exact Or.inl (by simpa [importCsv] using ht)
    | cons r rest ih =>
        rcases ih (importRow now s r) (by simpa [importCsv] using ht) with h | h
        · by_cases hskip : strip (rowGetD r "title" "") = ""
          · exact Or.inl (by simpa [importRow, hskip] using h)
          · rw [importRow, if_neg hskip] at h
            simp only [TaskRepo.create, List.mem_append, List.mem_singleton] at h
            rcases h with h | h
            · exact Or.inl h
            · exact Or.inr (by rw [h])
        · exact Or.inr h
  · have hrow : ∀ (s' : Store) (r : CsvRow),
        importRow now s' (r.filter fun p => p.1 ≠ "is_done") = importRow now s' r := by
      intro s' r
      simp only [importRow, rowGetD,
        rowGet_filter_ne r "is_done" "title" (by decide),
        rowGet_filter_ne r "is_done" "details" (by decide),
        rowGet_filter_ne r "is_done" "category" (by decide),
        rowGet_filter_ne r "is_done" "priority" (by decide),
        rowGet_filter_ne r "is_done" "due_date" (by decide)]
    unfold importCsv
    induction rows generalizing s with
    | nil => rfl
    | cons r rest ih =>
        simp only [List.map_cons, List.foldl_cons, hrow]
        exact ih (importRow now s r)

/-- Witness for C10: importing a row whose file says `is_done = 1` still
yields a not-done task. -/
theorem import_never_preserves_is_done_witness :
    ({ id := 1, title := "a", details := "", category := "", priority := "Medium",
       due_date := "", is_done := false, order_index := 1, created_at := "n",
       updated_at := "n" } : Task).is_done = false := by
  have h := (import_never_preserves_is_done emptyStore "n" "t" "" "" "Medium" ""
      [[("title", "a"), ("is_done", "1")]]).2.1
      { id := 1, title := "a", details := "", category := "", priority := "Medium",
        due_date := "", is_done := false, order_index := 1, created_at := "n",
        updated_at := "n" } (by decide)
  rcases h with h | h
  · exact absurd h (by decide)
  · exact h

/-! ## C3 -/

/-- Unfolding lemma for `likeMatch` on a non-empty pattern. -/
theorem likeMatch_cons (c : Char) (p s : List Char) :
    likeMatch (c :: p) s =
      if c = '%' then s.tails.any fun t => likeMatch p t
      else if c = '_' then
        match s with
        | [] => false
        | _ :: s' => likeMatch p s'
      else
        match s with
        | [] => false
        | c' :: s' => (lowerAscii c = lowerAscii c') && likeMatch p s' := rfl

theorem likeMatch_percent_nil (s : List Char) : likeMatch ['%'] s = true := by
  induction s with
  | nil => rfl
  | cons c s' ih =>
      have ih' : (s'.tails.any fun t => likeMatch [] t) = true := by
        simpa [likeMatch] using ih
      simp [likeMatch, List.tails_cons, ih']

/-- A wildcard-free pattern followed by `%` matches exactly the strings it
prefixes (ASCII-case-insensitively). -/
theorem likeMatch_append_percent (q : List Char)
    (hq : ∀ c ∈ q, c ≠ '%' ∧ c ≠ '_') :
    ∀ s, likeMatch (q ++ ['%']) s = prefixCI q s := by
  induction q with
  | nil => intro s; simpa [prefixCI] using likeMatch_percent_nil s
  | cons c q ih =>
      intro s
      have hc := hq c (List.mem_cons_self c q)
      rw [List.cons_append, likeMatch_cons, if_neg hc.1, if_neg hc.2]
      cases s with
      | nil => rfl
      | cons c' s' =>
          simp only [prefixCI]
          rw [ih (fun d hd => hq d (List.mem_cons_of_mem c hd)) s']

theorem tails_any_prefixCI (q : List Char) :
    ∀ s, (s.tails.any fun t => prefixCI q t) = infixCI q s := by
  intro s
  induction s with
  | nil => cases q <;> rfl
  | cons c s' ih => simp [List.tails_cons, infixCI, ih]

/-- Over a wildcard-free parameter `q`, the generated `LIKE '%q%'` test is
exactly the ASCII-case-insensitive substring test. -/
theorem likeStr_wrap (s q : String) (hq : noWild q = true) :
    likeStr s ("%" ++ q ++ "%") = containsCI s q := by
  have hq' : ∀ c ∈ q.toList, c ≠ '%' ∧ c ≠ '_' := by
    intro c hc
    have := (List.all_eq_true.mp hq) c hc
    constructor <;> · intro h; subst h; simp_all
  have hdata : ("%" ++ q ++ "%").toList = '%' :: (q.toList ++ ['%']) := by
    simp [String.toList]
  rw [likeStr, hdata, likeMatch_cons, if_pos rfl]
  have h1 : (s.toList.tails.any fun t => likeMatch (q.toList ++ ['%']) t)
      = s.toList.tails.any fun t => prefixCI q.toList t := by
    simp only [likeMatch_append_percent q.toList hq']
  rw [h1]
  exact tails_any_prefixCI q.toList s.toList

/-- C3 (amended). A row is returned by `_query_tasks` exactly when it is
in the store and satisfies every active filter, the filters being
AND-combined: the non-empty (trimmed) search text as an OR of SQL
`LIKE '%q%'` tests over `title`, `details` and `category` — which are
exactly substring matches whenever the search text contains no `LIKE`
wildcard (`%` or `_`) — the status filter only when it is active-only or
done-only, and the priority and category filters only when their value is
not the sentinel `"Все"` ("All"), which contributes no predicate. -/
theorem query_filter_spec (st : QueryState) (s : Store) (t : Task) :
    (t ∈ queryTasks st s ↔
      (t ∈ s.tasks ∧
       (strip st.search ≠ "" →
         (likeStr t.title ("%" ++ strip st.search ++ "%") = true ∨
          likeStr t.details ("%" ++ strip st.search ++ "%") = true ∨
          likeStr t.category ("%" ++ strip st.search ++ "%") = true)) ∧
       (st.status = "Активные" → t.is_done = false) ∧
       (st.status = "Выполненные" → t.is_done = true) ∧
       (st.priority ≠ "Все" → t.priority = st.priority) ∧
       (st.category ≠ "Все" → t.category = st.category))) ∧
    (noWild (strip st.search) = true →
      (t ∈ queryTasks st s ↔
        (t ∈ s.tasks ∧
         (strip st.search ≠ "" →
           (containsCI t.title (strip st.search) = true ∨
            containsCI t.details (strip st.search) = true ∨
            containsCI t.category (strip st.search) = true)) ∧
         (st.status = "Активные" → t.is_done = false) ∧
         (st.status = "Выполненные" → t.is_done = true) ∧
         (st.priority ≠ "Все" → t.priority = st.priority) ∧
         (st.category ≠ "Все" → t.category = st.category)))) := by
  have hgen : t ∈ queryTasks st s ↔
      (t ∈ s.tasks ∧
       (strip st.search ≠ "" →
         (likeStr t.title ("%" ++ strip st.search ++ "%") = true ∨
          likeStr t.details ("%" ++ strip st.search ++ "%") = true ∨
          likeStr t.category ("%" ++ strip st.search ++ "%") = true)) ∧
       (st.status = "Активные" → t.is_done = false) ∧
       (st.status = "Выполненные" → t.is_done = true) ∧
       (st.priority ≠ "Все" → t.priority = st.priority) ∧
       (st.category ≠ "Все" → t.category = st.category)) := by
    rw [queryTasks, List.mem_insertionSort, List.mem_filter]
    unfold rowPred whereClauses
    simp only [List.all_append]
    by_cases h1 : strip st.search = "" <;>
      by_cases h2 : st.status = "Активные" <;>
        by_cases h3 : st.status = "Выполненные" <;>
          by_cases h4 : st.priority = "Все" <;>
            by_cases h5 : st.category = "Все" <;>
              simp_all <;> tauto
  refine ⟨hgen, ?_⟩
  intro hq
  rw [hgen]
  simp only [likeStr_wrap _ _ hq]

/-- The search state and store of the counterexample: the search text
`"a%b"` carries a `LIKE` wildcard. -/
def cxSearchState : QueryState :=
  { search := "a%b", status := "Все", priority := "Все", category := "Все"
    sort_by := "order_index", sort_desc := false }

def cxSearchTask : Task :=
  { id := 1, title := "ab", details := "", category := "", priority := "Medium"
    due_date := "", is_done := false, order_index := 1, created_at := "c"
    updated_at := "u" }

def cxSearchStore : Store := { tasks := [cxSearchTask], next_id := 2 }

/-- Counterexample to C3 as stated: with the non-empty search text
`"a%b"`, the task titled `"ab"` is returned — `LIKE '%a%b%'` matches it —
although none of its three text fields contains the substring `"a%b"`, so
the search predicate is not an OR of substring matches and the row is
returned without satisfying the claimed filter. -/
theorem query_filter_counterexample :
    cxSearchTask ∈ queryTasks cxSearchState cxSearchStore ∧
    strip cxSearchState.search ≠ "" ∧
    containsCI cxSearchTask.title (strip cxSearchState.search) = false ∧
    containsCI cxSearchTask.details (strip cxSearchState.search) = false ∧
    containsCI cxSearchTask.category (strip cxSearchState.search) = false := by
  decide

/-- Witness for C3: with search text `" wa "`, status active-only,
priority `High` and category `home`, task 1 of `sampleStore` is returned;
the general conjunct is also exercised on the wildcard search state. -/
theorem query_filter_spec_witness :
    sampleTask ∈ queryTasks
      { search := " wa ", status := "Активные", priority := "High",
        category := "home", sort_by := "order_index", sort_desc := false }
      sampleStore ∧
    cxSearchTask ∈ queryTasks cxSearchState cxSearchStore := by
  constructor
  · apply ((query_filter_spec
      { search := " wa ", status := "Активные", priority := "High",
        category := "home", sort_by := "order_index", sort_desc := false }
      sampleStore sampleTask).2 (by decide)).mpr
    refine ⟨by decide, fun _ => ?_, fun _ => by decide, fun h => ?_, fun _ => by decide,
      fun _ => by decide⟩
    · exact Or.inl (by decide)
    · exact absurd h (by decide)
  · apply (query_filter_spec cxSearchState cxSearchStore cxSearchTask).1.mpr
    refine ⟨by decide, fun _ => ?_, fun h => ?_, fun h => ?_, fun h => ?_, fun h => ?_⟩
    · exact Or.inl (by decide)
    · exact absurd h (by decide)
    · exact absurd h (by decide)
    · exact absurd h (by decide)
    · exact absurd h (by decide)

/-! ## C8 -/

/-- C8. For every row and every current date: the "done" tag appears
exactly when the row is done; the "high" (high-priority) tag exactly when
`priority = "High"`, independently of all other tags; for not-done rows
with a parseable due date, "overdue" appears exactly when the date is
before today, "today" when it equals today, and "soon" when it lies in
the next three days; done rows never carry a temporal tag; and attaching
tags to the queried rows does not change which rows the query returns. -/
theorem row_tags_spec (t : Task) (today : Nat) (st : QueryState) (s : Store) :
    ("done" ∈ applyRowTags t today ↔ t.is_done = true) ∧
    ("high" ∈ applyRowTags t today ↔ t.priority = "High") ∧
    ("overdue" ∈ applyRowTags t today ↔
      (t.is_done = false ∧ ∃ ymd, parseDate t.due_date = some ymd ∧
        dateRank ymd < today)) ∧
    ("today" ∈ applyRowTags t today ↔
      (t.is_done = false ∧ ∃ ymd, parseDate t.due_date = some ymd ∧
        dateRank ymd = today)) ∧
    ("soon" ∈ applyRowTags t today ↔
      (t.is_done = false ∧ ∃ ymd, parseDate t.due_date = some ymd ∧
        today < dateRank ymd ∧ dateRank ymd ≤ today + 3)) ∧
    (t.is_done = true →
      "overdue" ∉ applyRowTags t today ∧ "today" ∉ applyRowTags t today ∧
      "soon" ∉ applyRowTags t today) ∧
    ((queryTasks st s).map fun r => (r, applyRowTags r today)).map Prod.fst
      = queryTasks st s := by
  have hmap : ((queryTasks st s).map fun r => (r, applyRowTags r today)).map Prod.fst
      = queryTasks st s := by
    have hcomp : (Prod.fst ∘ fun r : Task => (r, applyRowTags r today)) = id := rfl
    rw [List.map_map, hcomp, List.map_id]
  refine ⟨?_, ?_, ?_, ?_, ?_, ?_, hmap⟩ <;> unfold applyRowTags
  case' refine_6 => intro hd
  all_goals
    by_cases hd : t.is_done
  all_goals
    by_cases hdue : t.due_date = ""
  all_goals
    try (have hpn : parseDate t.due_date = none := by rw [hdue]; rfl)
  all_goals
    first
    | (by_cases hp : t.priority = "High" <;> simp_all <;> omega)
    | (cases hparse : parseDate t.due_date with
       | none => by_cases hp : t.priority = "High" <;> simp_all <;> omega
       | some ymd =>
           by_cases h1 : dateRank ymd < today
           · by_cases hp : t.priority = "High" <;> simp_all <;> omega
           · by_cases h2 : dateRank ymd = today
             · by_cases hp : t.priority = "High" <;> simp_all <;> omega
             · by_cases h3 : dateRank ymd ≤ today + 3
               · by_cases hp : t.priority = "High" <;> simp_all <;>
                   first
                   | omega
                   | (split <;> simp_all <;> omega)
               · by_cases hp : t.priority = "High" <;> simp_all <;>
                   first
                   | omega
                   | (split <;> simp_all <;> omega))

/-- Witness for C8: the spec's §8 example — A due yesterday, B due today,
C due in two days, D done with no date — tagged against
today = 2025-10-12, with `parseDate` evaluated concretely. -/
theorem row_tags_spec_witness :
    (applyRowTags { sampleTask with priority := "Low", due_date := "2025-10-11" }
        (dateRank (2025, 10, 12)) = ["overdue"]) ∧
    (applyRowTags { sampleTask with priority := "Low", due_date := "2025-10-12" }
        (dateRank (2025, 10, 12)) = ["today"]) ∧
    (applyRowTags { sampleTask with priority := "Low", due_date := "2025-10-14" }
        (dateRank (2025, 10, 12)) = ["soon"]) ∧
    ("overdue" ∉ applyRowTags { sampleTask with due_date := "2025-10-11", is_done := true }
        (dateRank (2025, 10, 12))) := by
  refine ⟨by decide, by decide, by decide, ?_⟩
  exact ((row_tags_spec { sampleTask with due_date := "2025-10-11", is_done := true }
    (dateRank (2025, 10, 12)) allFilters sampleStore).2.2.2.2.2.1 (by decide)).1

/-! ## C6 -/

/-- The five user-visible fields the round-trip property speaks about. -/
def projectFields (t : Task) : String × String × String × String × String :=
  (t.title, t.details, t.category, t.priority, t.due_date)

/-- The invariants the program enforces on stored rows: both entry paths
(`TaskDialog.on_ok` and the import loop) strip the title and skip or
reject an empty one, the table's `CHECK` constraint restricts `priority`
to the closed enumeration, and both entry paths strip the due date.  The
due date's *validity* is deliberately absent: the dialog's date check is
commented out in the source (a seeded defect), so a stored row with a
non-empty, unparseable `due_date` is reachable. -/
def storedInvariant (t : Task) : Prop :=
  strip t.title = t.title ∧ t.title ≠ "" ∧
  (t.priority = "Low" ∨ t.priority = "Medium" ∨ t.priority = "High") ∧
  strip t.due_date = t.due_date

instance (t : Task) : Decidable (storedInvariant t) := by
  unfold storedInvariant; infer_instance

/-- The five user-visible fields as the CSV import re-creates them: the
first four verbatim, the due date cleared to `""` when it is non-empty
and `strptime` rejects it. -/
def projectFieldsImported (t : Task) : String × String × String × String × String :=
  (t.title, t.details, t.category, t.priority,
   if t.due_date = "" then t.due_date
   else if (parseDate t.due_date).isSome = true then t.due_date else "")

/-- Importing the exported record of a task satisfying the enforced
invariants is a `create` with the task's fields, the due date passed
through the import's parse-or-clear step. -/
theorem importRow_toCsvRow (now : String) (acc : Store) (t : Task)
    (ht : storedInvariant t) :
    importRow now acc (toCsvRow t) =
      (TaskRepo.create acc now t.title t.details t.category t.priority
        (if t.due_date = "" then t.due_date
         else if (parseDate t.due_date).isSome = true then t.due_date else "")).1 := by
  obtain ⟨hstrip, hne, hpri, hdstrip⟩ := ht
  have h1 : rowGet (toCsvRow t) "title" = some t.title := rfl
  have h2 : rowGet (toCsvRow t) "details" = some t.details := rfl
  have h3 : rowGet (toCsvRow t) "category" = some t.category := rfl
  have h4 : rowGet (toCsvRow t) "priority" = some t.priority := rfl
  have h5 : rowGet (toCsvRow t) "due_date" = some t.due_date := rfl
  rw [importRow, rowGetD, rowGetD, rowGetD, rowGetD, h1, h2, h3, h4, h5]
  simp only [Option.getD_some, hstrip, hdstrip, if_neg hne, if_pos hpri]

theorem importCsv_map_toCsvRow (now : String) (ts : List Task) :
    ∀ acc : Store, (∀ t ∈ ts, storedInvariant t) →
      (importCsv now acc (ts.map toCsvRow)).tasks.map projectFields
        = acc.tasks.map projectFields ++ ts.map projectFieldsImported := by
  induction ts with
  | nil => intro acc _; simp [importCsv]
  | cons t ts ih =>
      intro acc h
      have hstep := importRow_toCsvRow now acc t (h t (List.mem_cons_self t ts))
      have htail := ih (TaskRepo.create acc now t.title t.details t.category
          t.priority
          (if t.due_date = "" then t.due_date
           else if (parseDate t.due_date).isSome = true then t.due_date else "")).1
        (fun u hu => h u (List.mem_cons_of_mem t hu))
      simp only [List.map_cons, importCsv, List.foldl_cons] at htail ⊢
      rw [hstep, htail]
      simp [TaskRepo.create, projectFields, projectFieldsImported]

/-- C6 (amended). Exporting the full task set (all filters inactive) to
CSV and re-importing it into the empty store reproduces, row for row, the
`title`, `details`, `category` and `priority` values and re-creates every
`due_date` through the import's parse-or-clear step: a due date that is
empty or parses as `YYYY-MM-DD` is reproduced exactly, and an unparseable
non-empty one — reachable, since the dialog's date validation is
commented out — is cleared to `""`; in particular, when every stored
row's due date is empty or valid, all five fields round-trip exactly. -/
theorem csv_roundtrip_spec (s : Store) (now : String)
    (h : ∀ t ∈ s.tasks, storedInvariant t) :
    ((importCsv now emptyStore (exportCsv allFilters s)).tasks.map projectFields
      = (queryTasks allFilters s).map projectFieldsImported) ∧
    ((∀ t ∈ s.tasks, t.due_date = "" ∨ (parseDate t.due_date).isSome = true) →
      (importCsv now emptyStore (exportCsv allFilters s)).tasks.map projectFields
        = (queryTasks allFilters s).map projectFields) := by
  have hmem : ∀ t ∈ queryTasks allFilters s, t ∈ s.tasks := by
    intro t ht
    rw [queryTasks, List.mem_insertionSort, List.mem_filter] at ht
    exact ht.1
  have hq : ∀ t ∈ queryTasks allFilters s, storedInvariant t :=
    fun t ht => h t (hmem t ht)
  have hfirst : (importCsv now emptyStore (exportCsv allFilters s)).tasks.map
      projectFields = (queryTasks allFilters s).map projectFieldsImported := by
    rw [exportCsv]
    rw [importCsv_map_toCsvRow now (queryTasks allFilters s) emptyStore hq]
    simp [emptyStore]
  refine ⟨hfirst, ?_⟩
  intro hdue
  rw [hfirst]
  apply List.map_congr_left
  intro t ht
  rcases hdue t (hmem t ht) with hd | hd
  · simp [projectFieldsImported, projectFields, hd]
  · simp [projectFieldsImported, projectFields, hd]

/-- The store of the counterexample: one task whose non-empty due date
does not parse, reachable because the dialog's date check is commented
out. -/
def cxDueTask : Task :=
  { id := 1, title := "t", details := "", category := "", priority := "Medium"
    due_date := "not-a-date", is_done := false, order_index := 1
    created_at := "c", updated_at := "u" }

def cxDueStore : Store := { tasks := [cxDueTask], next_id := 2 }

/-- Counterexample to C6 as stated: exporting `cxDueStore` and
re-importing into the empty store clears the row's `due_date` from
`"not-a-date"` to `""`, so the five-field values are not reproduced for
that exported row. -/
theorem csv_roundtrip_counterexample :
    (queryTasks allFilters cxDueStore).map projectFields
      = [("t", "", "", "Medium", "not-a-date")] ∧
    (importCsv "n" emptyStore (exportCsv allFilters cxDueStore)).tasks.map
        projectFields = [("t", "", "", "Medium", "")] ∧
    (importCsv "n" emptyStore (exportCsv allFilters cxDueStore)).tasks.map
        projectFields
      ≠ (queryTasks allFilters cxDueStore).map projectFields := by
  decide

/-- Witness for C6 on `sampleStore`, whose two tasks satisfy the enforced
invariants and have empty-or-valid due dates: the exact five-field
round trip. -/
theorem csv_roundtrip_spec_witness :
    (importCsv "n" emptyStore (exportCsv allFilters sampleStore)).tasks.map projectFields
      = (queryTasks allFilters sampleStore).map projectFields :=
  (csv_roundtrip_spec sampleStore "n" (by decide)).2 (by decide)

/-! ## C7 -/

theorem rowGet_eq_none (r : CsvRow) (k : String) :
    rowGet r k = none ↔ k ∉ r.map Prod.fst := by
  induction r with
  | nil => simp [rowGet]
  | cons p rest ih =>
      cases hpk : (p.1 == k) with
      | true =>
          have : p.1 = k := by simpa using hpk
          simp [rowGet, List.find?_cons, hpk, this]
      | false =>
          have : p.1 ≠ k := by simpa using hpk
          simp only [rowGet, List.find?_cons, hpk, List.map_cons, List.mem_cons]
          rw [rowGet] at ih
          rw [ih]
          constructor
          · intro hn
            rintro (hk | hk)
            · exact this hk.symm
            · exact hn hk
          · intro hn hk
            exact hn (Or.inr hk)

theorem rowGet_eq_some (r : CsvRow) (hnd : (r.map Prod.fst).Nodup)
    (k v : String) : rowGet r k = some v ↔ (k, v) ∈ r := by
  induction r with
  | nil => simp [rowGet]
  | cons p rest ih =>
      have hnd' : (rest.map Prod.fst).Nodup := (List.nodup_cons.mp hnd).2
      have hp1 : p.1 ∉ rest.map Prod.fst := (List.nodup_cons.mp hnd).1
      cases hpk : (p.1 == k) with
      | true =>
          have hk : p.1 = k := by simpa using hpk
          simp only [rowGet, List.find?_cons, hpk, Option.map_some, List.mem_cons]
          constructor
          · intro hv
            left
            cases p with
            | mk a b => simp_all
          · rintro (hv | hv)
            · rw [← hv]; rfl
            · have hmem : k ∈ rest.map Prod.fst := by
                simpa using List.mem_map_of_mem Prod.fst hv
              rw [← hk] at hmem
              exact absurd hmem hp1
      | false =>
          have hk : p.1 ≠ k := by simpa using hpk
          simp only [rowGet, List.find?_cons, hpk, List.mem_cons]
          rw [rowGet] at ih
          rw [ih hnd']
          constructor
          · exact fun hv => Or.inr hv
          · rintro (hv | hv)
            · exact absurd (congrArg Prod.fst hv).symm hk
            · exact hv

/-- Under unique header names, looking a field up by name is invariant
under reordering the columns. -/
theorem rowGet_perm (r r' : CsvRow) (hperm : r.Perm r')
    (hnd : (r.map Prod.fst).Nodup) (k : String) :
    rowGet r' k = rowGet r k := by
  have hnd' : (r'.map Prod.fst).Nodup := ((hperm.map Prod.fst).nodup_iff).mp hnd
  cases hcase : rowGet r k with
  | some v =>
      exact (rowGet_eq_some r' hnd' k v).mpr
        (hperm.mem_iff.mp ((rowGet_eq_some r hnd k v).mp hcase))
  | none =>
      have hnot := (rowGet_eq_none r k).mp hcase
      exact (rowGet_eq_none r' k).mpr
        (fun hm => hnot ((hperm.map Prod.fst).mem_iff.mpr hm))

/-- C7. Per imported CSV record: a row whose (stripped) title is empty
is skipped; otherwise exactly one task is appended, with fresh id,
`order_index`, timestamps and `is_done = false` regardless of any `id`,
`order_index` or timestamp columns (deleting those columns does not change
the import); a priority outside {Low, Medium, High} (or a missing priority
column) is replaced by `"Medium"`; a non-empty due date that fails to
parse as `YYYY-MM-DD` is cleared to `""` instead of rejecting the row; and
looking fields up by header name makes the import invariant under column
reordering (for distinct headers). -/
theorem import_row_spec (now : String) (s : Store) (r : CsvRow) :
    (strip (rowGetD r "title" "") = "" → importRow now s r = s) ∧
    (strip (rowGetD r "title" "") ≠ "" →
      ∃ t : Task,
        (importRow now s r).tasks = s.tasks ++ [t] ∧
        t.title = strip (rowGetD r "title" "") ∧
        t.id = s.next_id ∧ t.order_index = maxOrderIndex s + 1 ∧
        t.created_at = now ∧ t.updated_at = now ∧ t.is_done = false ∧
        (∀ p, rowGet r "priority" = some p →
          ((p = "Low" ∨ p = "Medium" ∨ p = "High") → t.priority = p) ∧
          (¬(p = "Low" ∨ p = "Medium" ∨ p = "High") → t.priority = "Medium")) ∧
        (rowGet r "priority" = none → t.priority = "Medium") ∧
        (strip (rowGetD r "due_date" "") ≠ "" →
          (parseDate (strip (rowGetD r "due_date" "")) = none → t.due_date = "") ∧
          ((parseDate (strip (rowGetD r "due_date" ""))).isSome = true →
            t.due_date = strip (rowGetD r "due_date" "")))) ∧
    (importRow now s (r.filter fun p => p.1 ≠ "id") = importRow now s r) ∧
    (importRow now s (r.filter fun p => p.1 ≠ "order_index") = importRow now s r) ∧
    (importRow now s (r.filter fun p => p.1 ≠ "created_at") = importRow now s r) ∧
    (importRow now s (r.filter fun p => p.1 ≠ "updated_at") = importRow now s r) ∧
    (∀ r' : CsvRow, r.Perm r' → (r.map Prod.fst).Nodup →
      importRow now s r' = importRow now s r) := by
  have hignore : ∀ bad : String, bad ≠ "title" → bad ≠ "details" →
      bad ≠ "category" → bad ≠ "priority" → bad ≠ "due_date" →
      importRow now s (r.filter fun p => p.1 ≠ bad) = importRow now s r := by
    intro bad hb1 hb2 hb3 hb4 hb5
    simp only [importRow, rowGetD,
      rowGet_filter_ne r bad "title" (Ne.symm hb1),
      rowGet_filter_ne r bad "details" (Ne.symm hb2),
      rowGet_filter_ne r bad "category" (Ne.symm hb3),
      rowGet_filter_ne r bad "priority" (Ne.symm hb4),
      rowGet_filter_ne r bad "due_date" (Ne.symm hb5)]
  refine ⟨?_, ?_, hignore "id" (by decide) (by decide) (by decide) (by decide) (by decide),
    hignore "order_index" (by decide) (by decide) (by decide) (by decide) (by decide),
    hignore "created_at" (by decide) (by decide) (by decide) (by decide) (by decide),
    hignore "updated_at" (by decide) (by decide) (by decide) (by decide) (by decide),
    ?_⟩
  · intro h
    rw [importRow, if_pos h]
  · intro h
    rw [importRow, if_neg h]
    refine ⟨{ id := s.next_id, title := strip (rowGetD r "title" "")
              details := rowGetD r "details" "", category := rowGetD r "category" ""
              priority :=
                match rowGet r "priority" with
                | some p => if p = "Low" ∨ p = "Medium" ∨ p = "High" then p else "Medium"
                | none => "Medium"
              due_date :=
                if strip (rowGetD r "due_date" "") = "" then strip (rowGetD r "due_date" "")
                else if (parseDate (strip (rowGetD r "due_date" ""))).isSome = true then
                  strip (rowGetD r "due_date" "")
                else ""
              is_done := false, order_index := maxOrderIndex s + 1
              created_at := now, updated_at := now },
      rfl, rfl, rfl, rfl, rfl, rfl, rfl, ?_, ?_, ?_⟩
    · intro p hp
      constructor
      · intro hin
        simp [TaskRepo.create, hp, if_pos hin]
      · intro hout
        simp [TaskRepo.create, hp, if_neg hout]
    · intro hp
      simp [TaskRepo.create, hp]
    · intro hdue
      constructor
      · intro hparse
        simp [TaskRepo.create, if_neg hdue, hparse]
      · intro hparse
        simp [TaskRepo.create, if_neg hdue, hparse]
  · intro r' hperm hnd
    simp only [importRow, rowGetD,
      rowGet_perm r r' hperm hnd "title",
      rowGet_perm r r' hperm hnd "details",
      rowGet_perm r r' hperm hnd "category",
      rowGet_perm r r' hperm hnd "priority",
      rowGet_perm r r' hperm hnd "due_date"]

/-- Witness for C7: a shuffled record with an unknown priority, a bad due
date, and an `is_done`/`id` column still imports as a single fresh task;
a record with a blank title is skipped. -/
theorem import_row_spec_witness :
    (importRow "n" emptyStore [("title", "  ")] = emptyStore) ∧
    (importRow "n" emptyStore
        [("due_date", "2025-13-40"), ("title", "task x"), ("priority", "Urgent"),
         ("id", "99"), ("order_index", "7")]).tasks.map
      (fun t => (t.title, t.priority, t.due_date, t.is_done, t.id, t.order_index))
      = [("task x", "Medium", "", false, 1, 1)] := by
  constructor
  · exact (import_row_spec "n" emptyStore [("title", "  ")]).1 (by decide)
  · obtain ⟨t, htasks, htitle, hid, hord, -, -, hdone, hpri, -, hdue⟩ :=
      (import_row_spec "n" emptyStore
        [("due_date", "2025-13-40"), ("title", "task x"), ("priority", "Urgent"),
         ("id", "99"), ("order_index", "7")]).2.1 (by decide)
    rw [htasks]
    have h1 := (hpri "Urgent" (by decide)).2 (by decide)
    have h2 := (hdue (by decide)).1 (by decide)
    simp [emptyStore, htitle, hid, hord, hdone, h1, h2]
    decide

end Todo
